import Mathlib

/-!
Shallow embedding of the Audio2Face SDK core pipeline
(`src/audio2face-sdk-node.mjs`; the browser variant duplicates the same
core): windowing, output decoding, temporal smoothing, aggregation and
resampling, with the inference session modelled as an injected oracle.

JavaScript numbers are modelled as rationals, with `none : Option ℚ`
standing for NaN (and for the NaN produced by arithmetic on an
`undefined` typed-array read), so that the propagation of out-of-range
reads through `sigmoid` and clamping is captured exactly.  `Math.exp` is
the host's exponential and enters the model as a function parameter `e`.
`Date.now()` timestamps are host clock readings and are not part of the
functional model, so `Frame` omits the `timestamp` field.
-/

namespace A2F

/-- A JavaScript number: `some q` is an ordinary finite number, `none`
models NaN (including the result of arithmetic on `undefined`). -/
abbrev JNum := Option ℚ

/-- JS addition: NaN propagates. -/
def jadd : JNum → JNum → JNum
  | some a, some b => some (a + b)
  | _, _ => none

/-- JS multiplication: NaN propagates. -/
def jmul : JNum → JNum → JNum
  | some a, some b => some (a * b)
  | _, _ => none

/-- JS unary minus: NaN propagates. -/
def jneg : JNum → JNum
  | some a => some (-a)
  | none => none

/-- JS division; NaN propagates.  A zero divisor would give an infinity in
JS and gives the rational `a / 0 = 0` here; the only divisors the code
produces are `1 + Math.exp _` (never zero for the real exponential) and
the length of a nonempty frame list (positive). -/
def jdiv : JNum → JNum → JNum
  | some a, some b => some (a / b)
  | _, _ => none

/-- `Math.min`: NaN if either argument is NaN. -/
def jsMin : JNum → JNum → JNum
  | some a, some b => some (min a b)
  | _, _ => none

/-- `Math.max`: NaN if either argument is NaN. -/
def jsMax : JNum → JNum → JNum
  | some a, some b => some (max a b)
  | _, _ => none

/-- `x || 0`: `undefined`, NaN and 0 all coerce to 0. -/
def jorZero : JNum → ℚ
  | some a => a
  | none => 0

/-- A typed-array read `data[i]`: `undefined` (here `none`) out of range. -/
def tget (data : List ℚ) (i : ℕ) : JNum := data.get? i

/-- `this.sampleRate` -/
def sampleRate : ℕ := 16000

/-- `this.bufferLen`, the window length L. -/
def bufferLen : ℕ := 8320

/-- `this.bufferOfs`, the hop length H. -/
def bufferOfs : ℕ := 4160

/-- `this.skinOffset` -/
def skinOffset : ℕ := 0

/-- `this.skinSize` -/
def skinSize : ℕ := 140

/-- `this.jawOffset` -/
def jawOffset : ℕ := 150

/-- `this.jawSize` -/
def jawSize : ℕ := 15

/-- `this.eyesOffset` -/
def eyesOffset : ℕ := 165

/-- The canonical blendshape name table returned by
`generateBlendshapeNames()`, in source order. -/
def generateBlendshapeNames : List String :=
  [ "browInnerUp", "browDownLeft", "browDownRight", "browOuterUpLeft",
    "browOuterUpRight", "eyeLookUpLeft", "eyeLookUpRight", "eyeLookDownLeft",
    "eyeLookDownRight", "eyeLookInLeft", "eyeLookInRight", "eyeLookOutLeft",
    "eyeLookOutRight", "eyeBlinkLeft", "eyeBlinkRight", "eyeSquintLeft",
    "eyeSquintRight", "eyeWideLeft", "eyeWideRight", "cheekPuff",
    "cheekSquintLeft", "cheekSquintRight", "noseSneerLeft", "noseSneerRight",
    "jawOpen", "jawForward", "jawLeft", "jawRight",
    "mouthFunnel", "mouthPucker", "mouthLeft", "mouthRight",
    "mouthRollUpper", "mouthRollLower", "mouthShrugUpper", "mouthShrugLower",
    "mouthOpen", "mouthClose", "mouthSmileLeft", "mouthSmileRight",
    "mouthFrownLeft", "mouthFrownRight", "mouthDimpleLeft", "mouthDimpleRight",
    "mouthUpperUpLeft", "mouthUpperUpRight", "mouthLowerDownLeft", "mouthLowerDownRight",
    "mouthPressLeft", "mouthPressRight", "mouthStretchLeft", "mouthStretchRight" ]

/-- `sigmoid(x) = 1 / (1 + Math.exp(-x))`, over JS numbers;
`Math.exp NaN = NaN`. -/
def sigmoid (e : ℚ → ℚ) (x : JNum) : JNum :=
  jdiv (some 1) (jadd (some 1) ((jneg x).map e))

/-- `Math.max(0, Math.min(1, x))`. -/
def clamp01 (x : JNum) : JNum := jsMax (some 0) (jsMin (some 1) x)

/-- One (name, value) blendshape pair. -/
structure Blendshape where
  name : String
  value : JNum
deriving DecidableEq, Inhabited

/-- The eye-gaze record, read through `|| 0` so its fields are always
ordinary numbers. -/
structure Eyes where
  leftX : ℚ
  leftY : ℚ
  rightX : ℚ
  rightY : ℚ
deriving DecidableEq, Inhabited

/-- A decoded per-window result (`timestamp` omitted, see module header). -/
structure Frame where
  blendshapes : List Blendshape
  jaw : JNum
  eyes : Option Eyes
deriving DecidableEq, Inhabited

/-- `parseOutputs`, applied to the flat data of the first output tensor.
Skin reads have no `|| 0` guard, so an out-of-range read stays
`undefined` and its value decodes to NaN; jaw and eye reads are guarded
by `|| 0`. -/
def parseOutputs (e : ℚ → ℚ) (data : List ℚ) : Frame :=
  let numBs := min generateBlendshapeNames.length skinSize
  let blendshapes := (List.range numBs).map fun i =>
    { name := generateBlendshapeNames.getD i ""
      value := clamp01 (sigmoid e (jmul (tget data (skinOffset + i)) (some (1/10)))) }
  let jawValues := (List.range jawSize).map fun i => jorZero (tget data (jawOffset + i))
  let jaw := clamp01 (sigmoid e (jmul (some (jawValues.getD 0 0)) (some (1/10))))
  let eyes : Eyes :=
    { leftX := jorZero (tget data eyesOffset)
      leftY := jorZero (tget data (eyesOffset + 1))
      rightX := jorZero (tget data (eyesOffset + 2))
      rightY := jorZero (tget data (eyesOffset + 3)) }
  { blendshapes := blendshapes, jaw := jaw, eyes := some eyes }

/-- `smoothBlendshapes(prev, curr)`.  The JS null guard on `prev`/`curr`
is unrepresentable (lists are never null); the length guard is the
branch that matters.  In the else branch `prev[i]` is in range because
the lengths agree, so `getD _ default` never takes its default. -/
def smoothBlendshapes (σ : ℚ) (prev curr : List Blendshape) : List Blendshape :=
  if prev.length ≠ curr.length then curr
  else curr.mapIdx fun i bs =>
    { name := bs.name
      value := jadd (jmul (prev.getD i default).value (some σ))
                    (jmul bs.value (some (1 - σ))) }

/-- The aggregate of a batch run.  `frameCount` is `none` for the
empty-input result, which reuses `getEmptyResult()` and carries no
`frameCount` field. -/
structure AggResult where
  blendshapes : List Blendshape
  jaw : JNum
  eyes : Option Eyes
  frameCount : Option ℕ
deriving DecidableEq, Inhabited

/-- `getEmptyResult()`. -/
def getEmptyResult : Frame :=
  { blendshapes := generateBlendshapeNames.map fun n => { name := n, value := some 0 }
    jaw := some 0
    eyes := none }

/-- `results.reduce((acc, r) => acc + r.blendshapes[i].value, 0)`:
reading `r.blendshapes[i]` on a too-short frame gives `undefined` and
the `.value` access on it throws a TypeError, modelled by `none` at the
outer `Option` layer (distinct from the inner NaN layer). -/
def sumBlendshapeAt (results : List Frame) (i : ℕ) : Option JNum :=
  results.foldlM (fun acc r => (r.blendshapes.get? i).map fun bs => jadd acc bs.value)
    (some 0)

/-- `aggregateResults(results)`; `none` models a thrown TypeError. -/
def aggregateResults (results : List Frame) : Option AggResult :=
  match results with
  | [] =>
    some { blendshapes := getEmptyResult.blendshapes, jaw := getEmptyResult.jaw,
           eyes := getEmptyResult.eyes, frameCount := none }
  | r0 :: _ =>
    let numBs := r0.blendshapes.length
    let n : ℚ := results.length
    do
      let avg ← (List.range numBs).mapM fun i =>
        (sumBlendshapeAt results i).map fun s =>
          ({ name := (r0.blendshapes.getD i default).name, value := jdiv s (some n) } :
            Blendshape)
      pure { blendshapes := avg
             jaw := jdiv (results.foldl (fun acc r => jadd acc r.jaw) (some 0)) (some n)
             eyes := (results.getLastD r0).eyes
             frameCount := some results.length }

/-- `resampleAudio(audioData, fromRate, toRate)`, linear interpolation.
`new Float32Array(n)` with negative `n` would throw in JS; `Int.toNat`
clamps instead, which agrees on the positive rates the contract allows.
The guard `index >= audioData.length - 1` is JS numeric comparison,
written here over ℚ. -/
def resampleAudio (audioData : List ℚ) (fromRate toRate : ℚ) : List ℚ :=
  let newLength := (Int.floor ((audioData.length : ℚ) * (toRate / fromRate))).toNat
  (List.range newLength).map fun (i : ℕ) =>
    let pos : ℚ := (i : ℚ) / (toRate / fromRate)
    let index : ℤ := Int.floor pos
    let frac : ℚ := pos - index
    if (audioData.length : ℚ) - 1 ≤ (index : ℚ) then
      audioData.getLastD 0
    else
      audioData.getD index.toNat 0 * (1 - frac) + audioData.getD (index.toNat + 1) 0 * frac

/-- The mutable fields of an `Audio2FaceSDK` instance that the streaming
and batch paths can touch (the session is modelled as the oracle). -/
structure SDKState where
  audioBuffer : List ℚ
  lastResult : Option Frame
  smoothingFactor : ℚ
deriving DecidableEq

/-- Constructor state: empty buffer, no last result, smoothing 0.3. -/
def initState : SDKState :=
  { audioBuffer := [], lastResult := none, smoothingFactor := 3/10 }

/-- `runInference`: the session/tensor plumbing is collapsed into the
injected oracle, which receives the window and returns the flat data of
the first output tensor, or fails. -/
def runInference (e : ℚ → ℚ) (oracle : List ℚ → Option (List ℚ))
    (chunk : List ℚ) : Option Frame :=
  (oracle chunk).map (parseOutputs e)

/-- `processAudioChunk`.  The source appends, then (when a full window is
available) slices the window and shifts the buffer by the hop BEFORE
awaiting the inference call; only the last-result update follows it.  A
failed inference is therefore `(none, state-at-throw-time)`: buffer
already appended and shifted, last result untouched. -/
def processAudioChunk (e : ℚ → ℚ) (oracle : List ℚ → Option (List ℚ))
    (s : SDKState) (audioData : List ℚ) : Option Frame × SDKState :=
  let buf1 := s.audioBuffer ++ audioData
  if buf1.length < bufferLen then
    (some ((s.lastResult).getD getEmptyResult), { s with audioBuffer := buf1 })
  else
    let chunk := buf1.take bufferLen
    let buf2 := buf1.drop bufferOfs
    match runInference e oracle chunk with
    | none => (none, { s with audioBuffer := buf2 })
    | some r0 =>
      let r :=
        match s.lastResult with
        | some last =>
          { r0 with
            blendshapes := smoothBlendshapes s.smoothingFactor last.blendshapes r0.blendshapes }
        | none => r0
      (some r, { s with audioBuffer := buf2, lastResult := some r })

/-- The start offsets visited by the batch loop
`for (let i = 0; i < audioData.length - this.bufferLen; i += hopSize)`:
exactly the multiples `k * bufferOfs` with `k * bufferOfs + bufferLen <
len` (JS subtraction is exact, so `i < len - bufferLen` is `i +
bufferLen < len`).  The range bound covers every such `k`: from
`k * bufferOfs < len` follows `k ≤ len / bufferOfs`. -/
def batchStarts (len : ℕ) : List ℕ :=
  ((List.range (len / bufferOfs + 1)).filter fun k =>
    k * bufferOfs + bufferLen < len).map (· * bufferOfs)

/-- `processAudioFile`: slice a window at each batch start offset, run
inference on each, aggregate.  Touches none of the instance state, which
is threaded through unchanged; a failed inference propagates. -/
def processAudioFile (e : ℚ → ℚ) (oracle : List ℚ → Option (List ℚ))
    (s : SDKState) (audioData : List ℚ) : Option AggResult × SDKState :=
  (do
    let frames ← (batchStarts audioData.length).mapM fun i =>
      runInference e oracle ((audioData.drop i).take bufferLen)
    aggregateResults frames, s)

/-- `setSmoothing(factor)`. -/
def setSmoothing (s : SDKState) (factor : ℚ) : SDKState :=
  { s with smoothingFactor := max 0 (min 1 factor) }

/-- `dispose()`: resets buffer and last result (the smoothing factor is
kept; the session release is outside the model). -/
def dispose (s : SDKState) : SDKState :=
  { s with audioBuffer := [], lastResult := none }

/-- Iterated `processAudioChunk`: feed a list of chunks in order,
threading the state. -/
def runChunks (e : ℚ → ℚ) (oracle : List ℚ → Option (List ℚ)) :
    SDKState → List (List ℚ) → SDKState
  | s, [] => s
  | s, c :: cs => runChunks e oracle (processAudioChunk e oracle s c).2 cs

/-- A JS number is an ordinary value inside the unit interval (in
particular, it is not NaN). -/
def jInUnit (x : JNum) : Prop := ∃ q, x = some q ∧ 0 ≤ q ∧ q ≤ 1

/-- Reading the getD entries of a list back in order reproduces it. -/
lemma range_map_getD (l : List α) (d : α) :
    (List.range l.length).map (fun i => l.getD i d) = l := by
  apply List.ext_getElem (by simp)
  intro i h1 h2
  simp only [List.getElem_map, List.getElem_range]
  exact List.getD_eq_getElem l d h2

/-- `clamp01 (sigmoid e (some q))` is an ordinary number in the unit
interval, whatever the host exponential returns. -/
lemma clamp01_sigmoid_mem (e : ℚ → ℚ) (q : ℚ) : jInUnit (clamp01 (sigmoid e (some q))) := by
  refine ⟨max 0 (min 1 (1 / (1 + e (-q)))), rfl, le_max_left _ _, ?_⟩
  exact max_le (by norm_num) (min_le_left _ _)

/-- NaN passes through sigmoid and clamping unchanged. -/
lemma clamp01_sigmoid_none (e : ℚ → ℚ) : clamp01 (sigmoid e (jmul none x)) = none := rfl

/-- Claim C7: resampling a sequence at equal positive rates reproduces it
elementwise, and the resampled length is the floor of the input length
times toRate over fromRate. -/
theorem resample_identity_and_length :
    (∀ (x : List ℚ) (r : ℚ), 0 < r → resampleAudio x r r = x) ∧
    (∀ (x : List ℚ) (f t : ℚ),
      (resampleAudio x f t).length = (Int.floor ((x.length : ℚ) * t / f)).toNat) := by
  constructor
  · intro x r hr
    have hr1 : r / r = 1 := div_self (ne_of_gt hr)
    unfold resampleAudio
    rw [hr1]
    simp only [mul_one, div_one, Int.floor_natCast, Int.toNat_natCast]
    apply List.ext_getElem (by simp)
    intro i h1 h2
    simp only [List.getElem_map, List.getElem_range, Int.cast_natCast, sub_self]
    by_cases hc : (x.length : ℚ) - 1 ≤ (i : ℚ)
    · rw [if_pos hc]
      have hi : i = x.length - 1 := by
        have h1' : (x.length : ℚ) ≤ (i : ℚ) + 1 := by linarith
        have : x.length ≤ i + 1 := by exact_mod_cast h1'
        omega
      subst hi
      rw [List.getLastD_eq_getLast?, List.getLast?_eq_getElem?]
      simp [List.getElem?_eq_getElem h2]
    · rw [if_neg hc]
      rw [List.getD_eq_getElem x 0 (by simpa using h2)]
      simp
  · intro x f t
    unfold resampleAudio
    simp only [List.length_map, List.length_range]
    rw [mul_div_assoc]

/-- Witness for C7 at concrete inputs. -/
theorem resample_identity_and_length_witness :
    (0 : ℚ) < 2 ∧ resampleAudio [1, 2, 3] 2 2 = [1, 2, 3] ∧
    (resampleAudio [1, 2, 3, 4, 5] 16000 8000).length =
      (Int.floor ((([1, 2, 3, 4, 5] : List ℚ).length : ℚ) * 8000 / 16000)).toNat :=
  ⟨by norm_num, resample_identity_and_length.1 [1, 2, 3] 2 (by norm_num),
    resample_identity_and_length.2 [1, 2, 3, 4, 5] 16000 8000⟩

/-- Claim C5 counterexample: the canonical blendshape name table has 52
entries, not 50, and a decoded frame carries 52 pairs. -/
theorem blendshapeNames_card_counterexample :
    generateBlendshapeNames.length = 52 ∧ generateBlendshapeNames.length ≠ 50 ∧
    (parseOutputs (fun _ => (1 : ℚ)) []).blendshapes.length = 52 := by
  refine ⟨rfl, by decide, ?_⟩
  simp only [parseOutputs, List.length_map, List.length_range]
  decide

/-- Claim C5 (amended): the canonical blendshape name table contains
exactly 52 names, and every decoded frame and the empty result carry
exactly min(52, skinSize) = 52 pairs, in the table's order with the
table's names. -/
theorem blendshapeNames_card :
    ∀ (e : ℚ → ℚ) (data : List ℚ),
      generateBlendshapeNames.length = 52 ∧
      (parseOutputs e data).blendshapes.map Blendshape.name = generateBlendshapeNames ∧
      getEmptyResult.blendshapes.map Blendshape.name = generateBlendshapeNames := by
  intro e data
  refine ⟨rfl, ?_, ?_⟩
  · have hmin : min generateBlendshapeNames.length skinSize =
        generateBlendshapeNames.length := by decide
    simp only [parseOutputs, hmin, List.map_map]
    exact range_map_getD generateBlendshapeNames ""
  · simp [getEmptyResult, List.map_map, Function.comp_def]

/-- Claim C4 counterexample: on an empty raw output the first decoded
blendshape value is NaN (the skin read has no fallback to 0), not an
element of the unit interval and in particular not one half. -/
theorem decoder_nan_counterexample :
    ((parseOutputs (fun _ => (1 : ℚ)) []).blendshapes.headD default).value = none ∧
    ¬ jInUnit ((parseOutputs (fun _ => (1 : ℚ)) []).blendshapes.headD default).value := by
  have h0 : ((parseOutputs (fun _ => (1 : ℚ)) []).blendshapes.headD default).value = none := by
    rfl
  refine ⟨h0, ?_⟩
  intro h
  obtain ⟨q, hq, _⟩ := h
  rw [h0] at hq
  cases hq

/-- Claim C4 (amended): the jaw value is always an ordinary number in
the unit interval (its read is guarded by a fallback to 0); a blendshape
value is an ordinary number in the unit interval whenever its skin read
is in range (in particular whenever the data covers the 52 skin
entries), but an out-of-range skin read propagates as NaN. -/
theorem decoder_unit_range :
    ∀ (e : ℚ → ℚ) (data : List ℚ),
      jInUnit (parseOutputs e data).jaw ∧
      (52 ≤ data.length → ∀ bs ∈ (parseOutputs e data).blendshapes, jInUnit bs.value) ∧
      (∀ i < 52, data.length ≤ i →
        ((parseOutputs e data).blendshapes.getD i default).value = none) := by
  intro e data
  refine ⟨?_, ?_, ?_⟩
  · simp only [parseOutputs]
    exact clamp01_sigmoid_mem e _
  · intro hlen bs hbs
    simp only [parseOutputs, List.mem_map, List.mem_range] at hbs
    obtain ⟨i, hi, rfl⟩ := hbs
    have hi' : skinOffset + i < data.length := by
      simp only [skinOffset, Nat.zero_add]
      have : i < 52 := lt_of_lt_of_le hi (by decide)
      omega
    have hv := List.get?_eq_get hi'
    simp only [tget, hv, jmul]
    exact clamp01_sigmoid_mem e _
  · intro i hi hlen
    have hmin : i < min generateBlendshapeNames.length skinSize :=
      lt_of_lt_of_le hi (by decide)
    have hrange : i < (List.range (min generateBlendshapeNames.length skinSize)).length := by
      simpa using hmin
    have hnone : tget data (skinOffset + i) = none := by
      simp only [tget, skinOffset, Nat.zero_add]
      exact List.get?_eq_none.mpr hlen
    simp only [parseOutputs]
    rw [List.getD_eq_getElem _ default (by simpa using hrange)]
    simp only [List.getElem_map, List.getElem_range, hnone]
    rfl

/-- Witness for C4 (amended) at concrete inputs: data covering the skin
region puts every blendshape value in the unit interval, the jaw is in
the unit interval, and the empty data vector decodes index 51 to NaN. -/
theorem decoder_unit_range_witness :
    jInUnit (parseOutputs (fun _ => (1 : ℚ)) (List.replicate 52 0)).jaw ∧
    (∀ bs ∈ (parseOutputs (fun _ => (1 : ℚ)) (List.replicate 52 0)).blendshapes,
      jInUnit bs.value) ∧
    ((parseOutputs (fun _ => (1 : ℚ)) []).blendshapes.getD 51 default).value = none :=
  ⟨(decoder_unit_range (fun _ => 1) (List.replicate 52 0)).1,
   (decoder_unit_range (fun _ => 1) (List.replicate 52 0)).2.1 (by simp),
   (decoder_unit_range (fun _ => 1) []).2.2 51 (by decide) (by simp)⟩

/-- The reduce over the frames at blendshape index i succeeds when every
frame has more than i blendshapes. -/
lemma sumBlendshapeAt_isSome (results : List Frame) (i : ℕ)
    (h : ∀ r ∈ results, i < r.blendshapes.length) :
    (sumBlendshapeAt results i).isSome := by
  suffices H : ∀ (rs : List Frame), (∀ r ∈ rs, i < r.blendshapes.length) → ∀ acc : JNum,
      (rs.foldlM (fun (acc : JNum) (r : Frame) =>
        (r.blendshapes.get? i).map fun bs => jadd acc bs.value) acc).isSome by
    exact H results h (some 0)
  intro rs hrs
  induction rs with
  | nil => intro acc; rfl
  | cons r rs ih =>
    intro acc
    have hr : i < r.blendshapes.length := hrs r (by simp)
    have hv := List.get?_eq_get hr
    rw [List.foldlM_cons, hv]
    exact ih (fun r' hr' => hrs r' (by simp [hr'])) _

/-- mapM over the Option monad succeeds when every element does. -/
lemma mapM_option_isSome (l : List α) (f : α → Option β)
    (h : ∀ a ∈ l, (f a).isSome) : (l.mapM f).isSome := by
  induction l with
  | nil => rw [List.mapM_nil]; rfl
  | cons a as ih =>
    obtain ⟨b, hb⟩ := Option.isSome_iff_exists.mp (h a (by simp))
    obtain ⟨bs, hbs⟩ := Option.isSome_iff_exists.mp
      (ih (fun a' ha' => h a' (by simp [ha'])))
    rw [List.mapM_cons, hb, hbs]
    rfl

/-- Claim C6 counterexample: aggregating a frame list in which a later
frame has fewer blendshapes than the first throws (the reduce reads
`.value` off an undefined element), modelled as `none` — it does not
complete with the newer frame. -/
theorem aggregate_mismatch_counterexample :
    aggregateResults
      [{ blendshapes := [{ name := "a", value := some 0 }], jaw := some 0, eyes := none },
       { blendshapes := [], jaw := some 0, eyes := none }] = none := by
  decide

/-- Claim C6 (amended): smoothing with mismatched cardinality returns
the newer frame unmodified, and aggregation completes without error
when every frame has at least as many blendshapes as the first frame;
when a later frame is shorter than the first, the reduce throws. -/
theorem mismatch_recovery :
    (∀ (σ : ℚ) (prev curr : List Blendshape), prev.length ≠ curr.length →
      smoothBlendshapes σ prev curr = curr) ∧
    (∀ results : List Frame,
      (∀ r ∈ results, (results.headD default).blendshapes.length ≤ r.blendshapes.length) →
      (aggregateResults results).isSome) := by
  constructor
  · intro σ prev curr h
    simp [smoothBlendshapes, h]
  · intro results h
    match results with
    | [] => rfl
    | r0 :: rest =>
      have hsum : ∀ i < r0.blendshapes.length,
          (sumBlendshapeAt (r0 :: rest) i).isSome := by
        intro i hi
        apply sumBlendshapeAt_isSome
        intro r hr
        exact lt_of_lt_of_le hi (by simpa using h r hr)
      have hmap : ((List.range r0.blendshapes.length).mapM fun i =>
          (sumBlendshapeAt (r0 :: rest) i).map fun s =>
            ({ name := (r0.blendshapes.getD i default).name,
               value := jdiv s (some ((r0 :: rest).length : ℚ)) } : Blendshape)).isSome := by
        apply mapM_option_isSome
        intro i hi
        rw [List.mem_range] at hi
        obtain ⟨s, hs⟩ := Option.isSome_iff_exists.mp (hsum i hi)
        rw [hs]
        rfl
      obtain ⟨avg, havg⟩ := Option.isSome_iff_exists.mp hmap
      simp only [aggregateResults]
      rw [havg]
      rfl

/-- Witness for C6 (amended) at concrete inputs. -/
theorem mismatch_recovery_witness :
    ([] : List Blendshape).length ≠ [({ name := "a", value := some 1 } : Blendshape)].length ∧
    smoothBlendshapes (3/10) [] [{ name := "a", value := some 1 }] =
      [{ name := "a", value := some 1 }] ∧
    (aggregateResults
      [{ blendshapes := [{ name := "a", value := some 0 }], jaw := some 0,
         eyes := none }]).isSome :=
  ⟨by decide,
   mismatch_recovery.1 (3/10) [] [{ name := "a", value := some 1 }] (by decide),
   mismatch_recovery.2 _ (by decide)⟩

/-- Claim C8: a processAudioChunk call made while fewer than bufferLen
samples have accumulated and no last frame is held returns the all-zero
empty result, for every oracle (so the inference capability is never
consulted): value 0 for every canonical name, jaw 0, eyes absent. -/
theorem warmup_empty_result :
    ∀ (e : ℚ → ℚ) (oracle : List ℚ → Option (List ℚ)) (s : SDKState) (c : List ℚ),
      s.lastResult = none → s.audioBuffer.length + c.length < bufferLen →
      (processAudioChunk e oracle s c).1 = some getEmptyResult ∧
      (∀ bs ∈ getEmptyResult.blendshapes, bs.value = some 0) ∧
      getEmptyResult.jaw = some 0 ∧ getEmptyResult.eyes = none := by
  intro e oracle s c hlast hlen
  refine ⟨?_, ?_, rfl, rfl⟩
  · simp only [processAudioChunk, runInference]
    rw [if_pos (by simpa using hlen), hlast]
    rfl
  · intro bs hbs
    simp only [getEmptyResult, List.mem_map] at hbs
    obtain ⟨n, _, rfl⟩ := hbs
    rfl

/-- Witness for C8 at a concrete input. -/
theorem warmup_empty_result_witness :
    initState.lastResult = none ∧
    initState.audioBuffer.length + ([0] : List ℚ).length < bufferLen ∧
    (processAudioChunk (fun _ => (1 : ℚ)) (fun _ => none) initState [0]).1 =
      some getEmptyResult :=
  ⟨rfl, by decide,
    (warmup_empty_result (fun _ => 1) (fun _ => none) initState [0] rfl (by decide)).1⟩

/-- The constructor buffer is empty, so appending n samples gives n. -/
lemma initState_append_replicate_length (n : ℕ) (q : ℚ) :
    (initState.audioBuffer ++ List.replicate n q).length = n := by
  simp only [initState, List.nil_append, List.length_replicate]

/-- Claim C2 counterexample: a failing inference call leaves the buffer
appended and hop-shifted (4160 samples here), not as it was before the
call (empty), while the failure itself propagates. -/
theorem inference_failure_counterexample :
    (processAudioChunk (fun _ => (1 : ℚ)) (fun _ => none) initState
      (List.replicate 8320 0)).1 = none ∧
    (processAudioChunk (fun _ => (1 : ℚ)) (fun _ => none) initState
      (List.replicate 8320 0)).2.audioBuffer ≠ initState.audioBuffer := by
  have hL : (processAudioChunk (fun _ => (1 : ℚ)) (fun _ => none) initState
      (List.replicate 8320 0)).2.audioBuffer.length = 4160 := by
    simp only [processAudioChunk, runInference]
    rw [if_neg (by rw [initState_append_replicate_length]; decide)]
    simp only [Option.map_none']
    rw [List.length_drop, initState_append_replicate_length]
    decide
  refine ⟨?_, ?_⟩
  · simp only [processAudioChunk, runInference]
    rw [if_neg (by rw [initState_append_replicate_length]; decide)]
    simp only [Option.map_none']
  · intro heq
    rw [heq] at hL
    exact absurd hL (by decide)

/-- Claim C2 (amended): when the inference capability fails, the failure
propagates and the held last frame and the smoothing factor are
unchanged, but the buffer is not: the incoming samples were appended and
the hop-sized shift was applied before the inference call was awaited;
only the last-frame update is withheld on failure. -/
theorem inference_failure_state :
    ∀ (e : ℚ → ℚ) (oracle : List ℚ → Option (List ℚ)) (s : SDKState) (c : List ℚ),
      bufferLen ≤ (s.audioBuffer ++ c).length →
      oracle ((s.audioBuffer ++ c).take bufferLen) = none →
      processAudioChunk e oracle s c =
        (none, { s with audioBuffer := (s.audioBuffer ++ c).drop bufferOfs }) := by
  intro e oracle s c hlen horacle
  simp only [processAudioChunk, runInference]
  rw [if_neg (not_lt.mpr hlen), horacle]
  rfl

/-- Witness for C2 (amended) at a concrete input. -/
theorem inference_failure_state_witness :
    bufferLen ≤ (initState.audioBuffer ++ List.replicate 8320 (0 : ℚ)).length ∧
    processAudioChunk (fun _ => (1 : ℚ)) (fun _ => none) initState
      (List.replicate 8320 0) =
      (none, { initState with
        audioBuffer := (initState.audioBuffer ++ List.replicate 8320 (0 : ℚ)).drop bufferOfs }) :=
  ⟨by rw [initState_append_replicate_length]; decide,
   inference_failure_state (fun _ => 1) (fun _ => none) initState (List.replicate 8320 0)
     (by rw [initState_append_replicate_length]; decide) rfl⟩

/-- A single streaming call keeps the buffer strictly below the window
length provided the incoming chunk is at most one hop long. -/
lemma chunk_preserves_bound (e : ℚ → ℚ) (oracle : List ℚ → Option (List ℚ))
    (s : SDKState) (c : List ℚ) (hs : s.audioBuffer.length < bufferLen)
    (hc : c.length ≤ bufferOfs) :
    (processAudioChunk e oracle s c).2.audioBuffer.length < bufferLen := by
  simp only [processAudioChunk, runInference]
  split
  · next hcond => simpa using hcond
  · next hcond =>
    split
    · simp only [List.length_drop, List.length_append]
      simp only [bufferLen, bufferOfs] at *
      omega
    · simp only [List.length_drop, List.length_append]
      simp only [bufferLen, bufferOfs] at *
      omega

/-- Claim C3 counterexample: one 12480-sample chunk on an empty pipeline
is consumed as a window (the last frame becomes set), yet leaves the
buffer at exactly the window length 8320, not strictly below it. -/
theorem streaming_buffer_counterexample :
    (processAudioChunk (fun _ => (1 : ℚ)) (fun _ => some []) initState
      (List.replicate 12480 0)).2.audioBuffer.length = bufferLen ∧
    ¬ (processAudioChunk (fun _ => (1 : ℚ)) (fun _ => some []) initState
      (List.replicate 12480 0)).2.audioBuffer.length < bufferLen ∧
    (processAudioChunk (fun _ => (1 : ℚ)) (fun _ => some []) initState
      (List.replicate 12480 0)).2.lastResult.isSome := by
  have h2 : (processAudioChunk (fun _ => (1 : ℚ)) (fun _ => some []) initState
      (List.replicate 12480 0)).2.lastResult.isSome := by
    simp only [processAudioChunk, runInference]
    rw [if_neg (by rw [initState_append_replicate_length]; decide)]
    simp only [Option.map_some', initState, Option.isSome_some]
  have h1 : (processAudioChunk (fun _ => (1 : ℚ)) (fun _ => some []) initState
      (List.replicate 12480 0)).2.audioBuffer.length = bufferLen := by
    simp only [processAudioChunk, runInference]
    rw [if_neg (by rw [initState_append_replicate_length]; decide)]
    simp only [Option.map_some', initState]
    rw [List.length_drop]
    simp only [List.nil_append, List.length_replicate]
    decide
  refine ⟨h1, ?_, h2⟩
  rw [h1]
  decide

/-- Claim C3 (amended): starting from the constructor state, the buffer
stays strictly below the window length after every call — in particular
after consuming calls — provided each chunk is at most one hop long; a
consuming call always shifts the buffer by exactly the hop, so its
length (never negative) is append length minus hop, which for larger
chunks can reach the window length. -/
theorem streaming_buffer_invariant :
    (∀ (e : ℚ → ℚ) (oracle : List ℚ → Option (List ℚ)) (chunks : List (List ℚ)),
      (∀ c ∈ chunks, c.length ≤ bufferOfs) →
      (runChunks e oracle initState chunks).audioBuffer.length < bufferLen) ∧
    (∀ (e : ℚ → ℚ) (oracle : List ℚ → Option (List ℚ)) (s : SDKState) (c : List ℚ),
      bufferLen ≤ (s.audioBuffer ++ c).length →
      (processAudioChunk e oracle s c).2.audioBuffer.length =
        s.audioBuffer.length + c.length - bufferOfs) := by
  constructor
  · intro e oracle chunks h
    suffices H : ∀ (cs : List (List ℚ)) (s : SDKState), s.audioBuffer.length < bufferLen →
        (∀ c ∈ cs, c.length ≤ bufferOfs) →
        (runChunks e oracle s cs).audioBuffer.length < bufferLen by
      exact H chunks initState (by decide) h
    intro cs
    induction cs with
    | nil => intro s hs _; exact hs
    | cons c cs ih =>
      intro s hs hc
      simp only [runChunks]
      exact ih _ (chunk_preserves_bound e oracle s c hs (hc c (by simp)))
        (fun c' h' => hc c' (by simp [h']))
  · intro e oracle s c hlen
    simp only [processAudioChunk, runInference]
    rw [if_neg (not_lt.mpr hlen)]
    split
    · simp
    · simp

/-- Witness for C3 (amended) at concrete inputs. -/
theorem streaming_buffer_invariant_witness :
    (∀ c ∈ [List.replicate 4160 (0 : ℚ)], c.length ≤ bufferOfs) ∧
    (runChunks (fun _ => (1 : ℚ)) (fun _ => some []) initState
      [List.replicate 4160 0]).audioBuffer.length < bufferLen ∧
    bufferLen ≤ (initState.audioBuffer ++ List.replicate 8320 (0 : ℚ)).length ∧
    (processAudioChunk (fun _ => (1 : ℚ)) (fun _ => some []) initState
      (List.replicate 8320 0)).2.audioBuffer.length =
      initState.audioBuffer.length + (List.replicate 8320 (0 : ℚ)).length - bufferOfs :=
  ⟨by intro c hc
      rw [List.mem_singleton] at hc
      subst hc
      rw [List.length_replicate]
      decide,
   streaming_buffer_invariant.1 (fun _ => 1) (fun _ => some []) _
     (by intro c hc
         rw [List.mem_singleton] at hc
         subst hc
         rw [List.length_replicate]
         decide),
   by rw [initState_append_replicate_length]; decide,
   streaming_buffer_invariant.2 (fun _ => 1) (fun _ => some []) initState
     (List.replicate 8320 0) (by rw [initState_append_replicate_length]; decide)⟩

/-- Claim C10: a streaming call whose inference succeeds returns a frame
whose blendshapes are the smoothed blend of the held frame with the
newly decoded one, and stores exactly that returned (already smoothed)
frame as the new held frame, shifting the buffer by the hop. -/
theorem lastResult_is_returned_frame :
    ∀ (e : ℚ → ℚ) (oracle : List ℚ → Option (List ℚ)) (s : SDKState) (c : List ℚ)
      (prev : Frame) (raw : List ℚ),
      s.lastResult = some prev →
      oracle ((s.audioBuffer ++ c).take bufferLen) = some raw →
      bufferLen ≤ (s.audioBuffer ++ c).length →
      processAudioChunk e oracle s c =
        (some { parseOutputs e raw with
                blendshapes := smoothBlendshapes s.smoothingFactor prev.blendshapes
                  (parseOutputs e raw).blendshapes },
         { s with audioBuffer := (s.audioBuffer ++ c).drop bufferOfs,
                  lastResult := some { parseOutputs e raw with
                    blendshapes := smoothBlendshapes s.smoothingFactor prev.blendshapes
                      (parseOutputs e raw).blendshapes } }) := by
  intro e oracle s c prev raw hlast horacle hlen
  simp only [processAudioChunk, runInference]
  rw [if_neg (not_lt.mpr hlen), horacle, hlast]
  rfl

/-- Witness for C10 at a concrete input. -/
theorem lastResult_is_returned_frame_witness :
    (⟨List.replicate 8320 0, some getEmptyResult, 3/10⟩ : SDKState).lastResult =
      some getEmptyResult ∧
    bufferLen ≤ ((⟨List.replicate 8320 0, some getEmptyResult, 3/10⟩ : SDKState).audioBuffer ++
      ([] : List ℚ)).length ∧
    processAudioChunk (fun _ => (1 : ℚ)) (fun _ => some [])
      (⟨List.replicate 8320 0, some getEmptyResult, 3/10⟩ : SDKState) [] =
      (some { parseOutputs (fun _ => (1 : ℚ)) [] with
              blendshapes := smoothBlendshapes (3/10) getEmptyResult.blendshapes
                (parseOutputs (fun _ => (1 : ℚ)) []).blendshapes },
       { (⟨List.replicate 8320 0, some getEmptyResult, 3/10⟩ : SDKState) with
         audioBuffer := ((List.replicate 8320 (0 : ℚ)) ++ ([] : List ℚ)).drop bufferOfs,
         lastResult := some { parseOutputs (fun _ => (1 : ℚ)) [] with
           blendshapes := smoothBlendshapes (3/10) getEmptyResult.blendshapes
             (parseOutputs (fun _ => (1 : ℚ)) []).blendshapes } }) :=
  ⟨rfl,
   by show bufferLen ≤ (List.replicate 8320 (0 : ℚ) ++ ([] : List ℚ)).length
      rw [List.append_nil, List.length_replicate]
      decide,
   lastResult_is_returned_frame (fun _ => 1) (fun _ => some [])
     (⟨List.replicate 8320 0, some getEmptyResult, 3/10⟩ : SDKState) [] getEmptyResult []
     rfl rfl
     (by show bufferLen ≤ (List.replicate 8320 (0 : ℚ) ++ ([] : List ℚ)).length
         rw [List.append_nil, List.length_replicate]
         decide)⟩

/-- Claim C9: batch processing leaves every piece of streaming state —
the sample buffer, the held last frame, and the smoothing factor —
unchanged, for every input, state and oracle; the batch path reads none
of them and never applies smoothing. -/
theorem processFile_preserves_state :
    ∀ (e : ℚ → ℚ) (oracle : List ℚ → Option (List ℚ)) (s : SDKState) (audioData : List ℚ),
      (processAudioFile e oracle s audioData).2.audioBuffer = s.audioBuffer ∧
      (processAudioFile e oracle s audioData).2.lastResult = s.lastResult ∧
      (processAudioFile e oracle s audioData).2.smoothingFactor = s.smoothingFactor := by
  intro e oracle s audioData
  exact ⟨rfl, rfl, rfl⟩

/-- Claim C1 is violated by the code: the batch loop guard is strict
(`i < length - L`), so a 12480-sample input — exactly window plus hop —
slices one window (frameCount 1), not two; two windows require 12481
samples, and an input of exactly the window length slices none. -/
theorem batch_window_count_evaluation :
    batchStarts 12480 = [0] ∧ batchStarts 12481 = [0, 4160] ∧ batchStarts 8320 = [] ∧
    ((processAudioFile (fun _ => (1 : ℚ)) (fun _ => some []) initState
      (List.replicate 12480 0)).1.map AggResult.frameCount) = some (some 1) := by
  refine ⟨by decide, by decide, by decide, ?_⟩
  simp only [processAudioFile, List.length_replicate]
  rw [show batchStarts 12480 = [0] by decide]
  decide

end A2F
